import Mathlib

/-!
Shallow Lean embedding of the file-ingestion pipeline
(`src/file_processor.py`, `src/aidbox_client.py`, `src/hl7v2_handler.py`).

Modelling conventions:
* Strings are Lean `String`s; Python string primitives (`str.strip`,
  `str.split('|')`, `os.path.basename`) are re-implemented over `.data`
  (`List Char`) with Python's exact semantics.
* The processed-files tracking file is modelled as its list of lines
  (`List String`); `mark_file_as_processed` appending `entry + "\n"` to the
  file corresponds to appending one line to that list.
* A directory listing (the `glob` result) is an abstract input: a list of
  entries, each a path plus an is-regular-file flag.
* I/O and the network are oracles: each read attempt yields
  `Option String` (`none` = any of the caught exceptions), each HTTP post
  attempt yields a `PostOutcome` (a response with a status code and JSON
  body, or a transport-level exception).
* Unbounded `while True` retry loops are given fuel; `none` means the loop
  has not returned within that fuel, and nontermination is expressed as
  `∀ fuel, result = none`.
-/

namespace HS

/-! ### Python string primitives -/

/-- Python's `str.strip()` whitespace set: the characters for which
`str.isspace()` holds, i.e. CPython's Unicode whitespace:
U+0009..U+000D, U+001C..U+001F, U+0020, U+0085, U+00A0, U+1680,
U+2000..U+200A, U+2028, U+2029, U+202F, U+205F and U+3000. -/
def isPySpace (c : Char) : Bool :=
  (0x09 ≤ c.toNat && c.toNat ≤ 0x0d) ||
  (0x1c ≤ c.toNat && c.toNat ≤ 0x1f) ||
  c.toNat = 0x20 || c.toNat = 0x85 || c.toNat = 0xa0 || c.toNat = 0x1680 ||
  (0x2000 ≤ c.toNat && c.toNat ≤ 0x200a) ||
  c.toNat = 0x2028 || c.toNat = 0x2029 || c.toNat = 0x202f ||
  c.toNat = 0x205f || c.toNat = 0x3000

/-- Right strip over a char list. -/
def rstripL (l : List Char) : List Char :=
  (l.reverse.dropWhile isPySpace).reverse

/-- Python `str.strip()` over a char list. -/
def pyStripL (l : List Char) : List Char :=
  rstripL (l.dropWhile isPySpace)

/-- Python `str.strip()`. -/
def pyStrip (s : String) : String :=
  ⟨pyStripL s.data⟩

/-- Python `str.split(sep)` for a one-character separator, over a char
list.  `splitOnCharL sep [] = [[]]`, matching Python's `"".split(sep)`. -/
def splitOnCharL (sep : Char) : List Char → List (List Char)
  | [] => [[]]
  | c :: cs =>
    if c = sep then
      [] :: splitOnCharL sep cs
    else
      match splitOnCharL sep cs with
      | [] => [[c]]
      | r :: rs => (c :: r) :: rs

/-- Python `line.split('|')`. -/
def splitPipe (s : String) : List String :=
  (splitOnCharL '|' s.data).map fun l => ⟨l⟩

/-- `os.path.basename`: everything after the last `/`. -/
def basenameS (p : String) : String :=
  ⟨(splitOnCharL '/' p.data).getLastD []⟩

/-- Python string `<`: lexicographic by Unicode code point (which agrees
with byte-wise comparison of the UTF-8 encodings). -/
def pyStrLtL : List Char → List Char → Bool
  | [], [] => false
  | [], _ :: _ => true
  | _ :: _, [] => false
  | a :: as, b :: bs => if a = b then pyStrLtL as bs else decide (a < b)

/-- Python string `<=`, as used when sorting: `a <= b ↔ ¬ b < a`. -/
def pyStrLe (a b : String) : Bool :=
  !pyStrLtL b.data a.data

/-! ### Processed-Set Store (`FileProcessor.mark_file_as_processed`,
`FileProcessor._load_processed_files`) -/

/-- The serialized record line `f"{filename}|{timestamp}|{status}"`
(the trailing `"\n"` written by the code is the line separator in the
list-of-lines model of the store file). -/
def mkEntry (filename timestamp status : String) : String :=
  filename ++ "|" ++ timestamp ++ "|" ++ status

/-- `FileProcessor.mark_file_as_processed`: derives the basename, builds the
record line and appends it.  `ioOk` is the oracle for the append I/O: on
`false` (any exception) the function logs and returns `False` with the store
unchanged. -/
def markFileAsProcessed (ioOk : Bool) (filePath timestamp status : String)
    (store : List String) : Bool × List String :=
  if ioOk then
    (true, store ++ [mkEntry (basenameS filePath) timestamp status])
  else
    (false, store)

/-- Loop body of `FileProcessor._load_processed_files`: strip each line,
skip falsy (empty) lines, split on `'|'`, and when at least one part
exists add the first part to the set (modelled as a cons onto a list,
membership-equivalent to Python's `set.add`). -/
def loadProcessedFilesAux : List String → List String → List String
  | [], acc => acc
  | line :: rest, acc =>
    let l := pyStrip line
    if l ≠ "" then
      match splitPipe l with
      | [] => loadProcessedFilesAux rest acc
      | filename :: _ => loadProcessedFilesAux rest (filename :: acc)
    else
      loadProcessedFilesAux rest acc

/-- `FileProcessor._load_processed_files` on the store's lines. -/
def loadProcessedFiles (lines : List String) : List String :=
  loadProcessedFilesAux lines []

/-! ### Directory Scanner (`FileProcessor.get_new_files`) -/

/-- One entry of the `glob.glob` listing: the path and whether
`os.path.isfile` holds for it. -/
structure DirEntry where
  path : String
  isFile : Bool
deriving DecidableEq, Repr

/-- `FileProcessor.get_new_files`: keep regular files other than the
tracking file itself, early-return on an empty listing, load the
processed set, keep files whose basename is not in it, and sort by
basename.  Python's `list.sort(key=os.path.basename)` is the unique
stable sort by that key under `≤`, which `List.insertionSort` computes. -/
def get_new_files (entries : List DirEntry) (processedFilesPath : String)
    (storeLines : List String) : List String :=
  let processedFilesFilename := basenameS processedFilesPath
  let allFiles := (entries.filter fun e =>
    e.isFile && basenameS e.path ≠ processedFilesFilename).map DirEntry.path
  if allFiles = [] then
    []
  else
    let processedFiles := loadProcessedFiles storeLines
    let newFiles := allFiles.filter fun p =>
      decide (basenameS p ∉ processedFiles)
    List.insertionSort (fun a b => pyStrLe (basenameS a) (basenameS b) = true)
      newFiles

/-! ### Delivery client (`AidboxClient.post`, `send_hl7v2_message`,
`FileProcessor._send_message_with_retry`) -/

/-- A JSON object with string values, as far as the pipeline inspects it
(keys `status`, `id`).  Python dict truthiness: `[]` is falsy. -/
abbrev JsonDict := List (String × String)

/-- Python `d.get(k)`. -/
def dictGet (d : JsonDict) (k : String) : Option String :=
  (d.find? fun p => p.1 = k).map Prod.snd

/-- Python `d.get(k, dflt)`. -/
def dictGetD (d : JsonDict) (k dflt : String) : String :=
  (dictGet d k).getD dflt

/-- Outcome of one `self.session.post(...)` call: either an HTTP response
with a status code and (parsed) JSON body, or a transport-level exception
(timeout, connection error, request exception, JSON decode error, or any
other exception — all handled identically up to logging). -/
inductive PostOutcome where
  | resp (status : Nat) (body : JsonDict)
  | exc
deriving DecidableEq, Repr

/-- `AidboxClient.post`: `(success, response_data, status_code)`.
Status 200/201 → `(True, body, code)`; the 400/401/403/404 branch and the
server-error branch both → `(False, None, code)` (they differ only in the
log line); every exception branch → `(False, None, None)`. -/
def clientPost : PostOutcome → Bool × Option JsonDict × Option Nat
  | .resp status body =>
    if status = 200 ∨ status = 201 then
      (true, some body, some status)
    else if status = 400 ∨ status = 401 ∨ status = 403 ∨ status = 404 then
      (false, none, some status)
    else
      (false, none, some status)
  | .exc => (false, none, none)

/-- The dict returned by `send_hl7v2_message`, restricted to the keys its
callers read (`http_status_code`, `status`, `id`, `error_message`,
`final_attempt`).  Every return site of `send_hl7v2_message` produces a
non-empty dict, so a `RespData` value is always Python-truthy. -/
structure RespData where
  httpStatusCode : Option Nat
  status : Option String
  id : Option String
  errorMessage : Option String
  finalAttempt : Bool
deriving DecidableEq, Repr

/-- The `enhanced_response = {**response_data, "http_status_code": status_code}`
built on the HTTP-success path of `send_hl7v2_message`. -/
def enhancedResponse (body : JsonDict) (statusCode : Option Nat) : RespData :=
  { httpStatusCode := statusCode
    status := dictGet body "status"
    id := dictGet body "id"
    errorMessage := dictGet body "error_message"
    finalAttempt := false }

/-- The `error_response` returned after the final failed attempt of
`send_hl7v2_message`. -/
def finalErrorResponse (statusCode : Option Nat) : RespData :=
  { httpStatusCode := statusCode
    status := none
    id := none
    errorMessage := some "Failed to send HL7v2 message after all attempts"
    finalAttempt := true }

/-- The `for attempt in range(max_retries + 1)` loop of
`send_hl7v2_message`, recursing on the number of remaining attempts.
`posts attempt` is the oracle for the `attempt`-th `client.post` call.
The guard `success and response_data` requires `success = true` and a
Python-truthy (non-`None`, non-empty) dict.  On HTTP success the HL7v2
processing status is read with `response_data.get("status", "unknown")`
and mapped: `"error"` → `(False, enhanced)`, `"processed"` →
`(True, enhanced)`, anything else → `(False, enhanced)`.  On HTTP failure
the loop retries while attempts remain and otherwise returns the error
response carrying the last attempt's status code. -/
def sendAttemptsLoop (posts : Nat → PostOutcome) :
    Nat → Nat → Bool × Option RespData
  | attempt, remaining =>
    match clientPost (posts attempt) with
    | (success, some body, statusCode) =>
      if success && !body.isEmpty then
        let hl7Status := dictGetD body "status" "unknown"
        if hl7Status = "error" then
          (false, some (enhancedResponse body statusCode))
        else if hl7Status = "processed" then
          (true, some (enhancedResponse body statusCode))
        else
          (false, some (enhancedResponse body statusCode))
      else
        match remaining with
        | r + 1 => sendAttemptsLoop posts (attempt + 1) r
        | 0 => (false, some (finalErrorResponse statusCode))
    | (_, none, statusCode) =>
      match remaining with
      | r + 1 => sendAttemptsLoop posts (attempt + 1) r
      | 0 => (false, some (finalErrorResponse statusCode))

/-- `send_hl7v2_message(content, filename, max_retries)`: runs the bounded
attempt loop starting at attempt 0 with `max_retries` retries left. -/
def send_hl7v2_message (posts : Nat → PostOutcome) (maxRetries : Nat) :
    Bool × Option RespData :=
  sendAttemptsLoop posts 0 maxRetries

/-- `FileProcessor._send_message_with_retry`: the endless `while True` loop.
`rounds i` is the result of the `i`-th `send_hl7v2_message` call.  The loop
returns `(success, response_data)` exactly when
`response_data and response_data.get("http_status_code") in [200, 201]`
(a `RespData` is always truthy, see `RespData`); otherwise it sleeps and
retries.  Fuel bounds the number of rounds inspected; `none` means the
loop has not returned within that fuel. -/
def sendMessageWithRetry (rounds : Nat → Bool × Option RespData) :
    Nat → Nat → Option (Bool × RespData)
  | _, 0 => none
  | i, fuel + 1 =>
    match rounds i with
    | (success, some rd) =>
      if rd.httpStatusCode = some 200 || rd.httpStatusCode = some 201 then
        some (success, rd)
      else
        sendMessageWithRetry rounds (i + 1) fuel
    | (_, none) => sendMessageWithRetry rounds (i + 1) fuel

/-! ### Retrying File Reader (`FileProcessor.read_file_content`) -/

/-- `FileProcessor.read_file_content`: the endless `while True` loop.
`attempts n` is the oracle for the `n`-th attempt: `some content` if the
existence check, regular-file check, open, decode and read all succeed,
`none` for any raised exception (both `except` arms retry identically
after logging and sleeping).  Fuel bounds the attempts inspected; `none`
means the loop has not returned within that fuel. -/
def readFileContent (attempts : Nat → Option String) :
    Nat → Nat → Option String
  | _, 0 => none
  | i, fuel + 1 =>
    match attempts i with
    | some content => some content
    | none => readFileContent attempts (i + 1) fuel

/-! ### Ingestion Driver (`FileProcessor._process_single_file_with_retry`,
`FileProcessor.process_new_files`) -/

/-- Per-file oracle: outcomes of each read attempt, of each
`client.post` call in each `send_hl7v2_message` round
(`posts round attempt`), whether the single store append succeeds, and
the `datetime.now()` timestamp string used for the record. -/
structure FileOracle where
  readAttempts : Nat → Option String
  posts : Nat → Nat → PostOutcome
  appendOk : Bool
  timestamp : String

/-- `FileProcessor._process_single_file_with_retry` body: read the content
(endless retry), send it (endless retry), then on `success` mark the file
`"success"` and otherwise mark it `"error"`, ignoring the append's boolean
result, and `break`.  In this embedding no modelled step raises, so the
surrounding `while True`/`except` wrapper runs the body exactly once.
`none` means one of the two inner endless loops has not returned within
the fuel (the call blocks); `some store` is the store after the single
best-effort append. -/
def processSingleFile (o : FileOracle) (filePath : String)
    (store : List String) (fuel : Nat) : Option (List String) :=
  match readFileContent o.readAttempts 0 fuel with
  | none => none
  | some _content =>
    match sendMessageWithRetry
        (fun r => send_hl7v2_message (o.posts r) 3) 0 fuel with
    | none => none
    | some (success, _rd) =>
      if success then
        some (markFileAsProcessed o.appendOk filePath o.timestamp "success" store).2
      else
        some (markFileAsProcessed o.appendOk filePath o.timestamp "error" store).2

/-- The `for file_path in new_files` loop of
`FileProcessor.process_new_files`: processes files in order, incrementing
`processed_count` for every file whose per-file workflow returns.  The
result pairs the store's final observable contents with `some count` when
the loop completes and `none` when some file's workflow blocks forever
(in which case the store already holds the records appended before the
blocked file). -/
def processFilesLoop (oracles : String → FileOracle) (files : List String)
    (store : List String) (count : Nat) (fuel : Nat) :
    List String × Option Nat :=
  match files with
  | [] => (store, some count)
  | p :: rest =>
    match processSingleFile (oracles p) p store fuel with
    | none => (store, none)
    | some store' => processFilesLoop oracles rest store' (count + 1) fuel

/-- `FileProcessor.process_new_files`: scan for new files, then process
each in order, returning the count of files whose workflow completed
(the code returns 0 directly when the scan is empty, which coincides with
the loop's result on an empty list). -/
def process_new_files (entries : List DirEntry) (processedFilesPath : String)
    (storeLines : List String) (oracles : String → FileOracle) (fuel : Nat) :
    List String × Option Nat :=
  let newFiles := get_new_files entries processedFilesPath storeLines
  processFilesLoop oracles newFiles storeLines 0 fuel

/-! ### Derived notions used in the statements -/

/-- The first field of a record line: what `_load_processed_files` adds to
the set, i.e. `line.split('|')[0]`. -/
def firstField (s : String) : String :=
  (splitPipe s).headD ""

/-- Well-formedness of a filename, as the store's line format assumes:
non-empty, free of the `'|'` field separator, containing no line break
(a record is written as, and read back from, a single line of the store
file), and not starting with a whitespace character (so `str.strip()`
leaves the first field intact). -/
def wfFilename (f : String) : Prop :=
  f.data ≠ [] ∧ '|' ∉ f.data ∧ '\n' ∉ f.data ∧ '\r' ∉ f.data ∧
  isPySpace (f.data.headD '|') = false

instance (f : String) : Decidable (wfFilename f) := by
  unfold wfFilename
  infer_instance

/-! ### Concrete oracles used in closed statements -/

/-- A remote endpoint that answers every post with an HTTP 400 response. -/
def posts400 : Nat → PostOutcome := fun _ => .resp 400 []

/-- The per-round results the outer delivery retry loop observes against
`posts400`. -/
def rounds400 : Nat → Bool × Option RespData :=
  fun _ => send_hl7v2_message posts400 3

/-- Oracle for a file that reads fine and whose delivery gets an HTTP 200
response carrying business status "error". -/
def oracleBizErr : FileOracle where
  readAttempts := fun _ => some "MSH|1"
  posts := fun _ _ => .resp 200 [("status", "error"), ("id", "m7")]
  appendOk := true
  timestamp := "2024-01-01 00:00:00"

/-- Oracle for a file whose workflow succeeds end to end but whose store
append fails. -/
def oracleAppendFail : FileOracle where
  readAttempts := fun _ => some "MSH|2"
  posts := fun _ _ => .resp 200 [("status", "processed"), ("id", "m8")]
  appendOk := false
  timestamp := "2024-01-01 00:00:00"

/-- Oracle for a file whose every read attempt fails. -/
def oracleStuckRead : FileOracle where
  readAttempts := fun _ => none
  posts := fun _ _ => .exc
  appendOk := true
  timestamp := "2024-01-01 00:00:00"

/-! ### Helper lemmas: Python string primitives -/

theorem splitOnCharL_ne_nil (sep : Char) (l : List Char) :
    splitOnCharL sep l ≠ [] := by
  induction l with
  | nil => simp [splitOnCharL]
  | cons c cs ih =>
    simp only [splitOnCharL]
    by_cases h : c = sep
    · simp [h]
    · simp only [if_neg h]
      cases hc : splitOnCharL sep cs with
      | nil => simp
      | cons r rs => simp

theorem splitOnCharL_headD (sep : Char) (l : List Char) :
    (splitOnCharL sep l).headD [] = l.takeWhile (fun c => c != sep) := by
  induction l with
  | nil => simp [splitOnCharL]
  | cons c cs ih =>
    by_cases h : c = sep
    · subst h
      simp [splitOnCharL, List.takeWhile_cons]
    · simp only [splitOnCharL, if_neg h]
      cases hc : splitOnCharL sep cs with
      | nil => exact absurd hc (splitOnCharL_ne_nil sep cs)
      | cons r rs =>
        have hr : r = cs.takeWhile (fun c => c != sep) := by
          rw [← ih, hc, List.headD_cons]
        simp [List.takeWhile_cons, h, hr]

theorem splitOnCharL_append_sep (sep : Char) (f rest : List Char)
    (hf : sep ∉ f) : splitOnCharL sep (f ++ sep :: rest) = f :: splitOnCharL sep rest := by
  induction f with
  | nil => simp [splitOnCharL]
  | cons c cs ih =>
    have hc : ¬ c = sep := fun h => hf (h ▸ List.mem_cons_self c cs)
    have hcs : sep ∉ cs := fun h => hf (List.mem_cons_of_mem c h)
    simp only [List.cons_append, splitOnCharL, if_neg hc]
    rw [show cs.append (sep :: rest) = cs ++ sep :: rest from rfl, ih hcs]

theorem rstripL_append_cons (c : Char) (l₁ l₂ : List Char)
    (hc : isPySpace c = false) :
    rstripL (l₁ ++ c :: l₂) = l₁ ++ c :: rstripL l₂ := by
  unfold rstripL
  rw [List.reverse_append, List.reverse_cons, List.append_assoc,
    List.dropWhile_append]
  by_cases h : (l₂.reverse.dropWhile isPySpace).isEmpty = true
  · rw [if_pos h]
    rw [List.isEmpty_iff] at h
    simp [List.dropWhile_cons, hc, h]
  · rw [if_neg h]
    simp [List.reverse_append]

theorem pyStripL_cons (c : Char) (l : List Char) (hc : isPySpace c = false) :
    pyStripL (c :: l) = c :: rstripL l := by
  unfold pyStripL
  rw [List.dropWhile_cons, if_neg (by simp [hc])]
  have := rstripL_append_cons c [] l hc
  simpa using this

/-! ### Helper lemmas: store records -/

theorem firstField_eq_takeWhile (s : String) :
    firstField s = ⟨s.data.takeWhile (fun c => c != '|')⟩ := by
  unfold firstField splitPipe
  cases hc : splitOnCharL '|' s.data with
  | nil => exact absurd hc (splitOnCharL_ne_nil '|' s.data)
  | cons r rs =>
    have : (splitOnCharL '|' s.data).headD [] = r := by rw [hc, List.headD_cons]
    rw [splitOnCharL_headD] at this
    simp [← this]

/-- A well-formed record line survives `str.strip()` with its first field
intact: the stripped line is non-empty and its first `'|'`-separated field
is the filename. -/
theorem firstField_pyStrip_entry (f tsst : String) (hf : wfFilename f) :
    pyStrip (f ++ "|" ++ tsst) ≠ "" ∧
    firstField (pyStrip (f ++ "|" ++ tsst)) = f := by
  obtain ⟨hne, hpipe, hnl, hcr, hhead⟩ := hf
  have hdata : (f ++ "|" ++ tsst).data = f.data ++ '|' :: tsst.data := by
    simp [String.data_append]
  cases hfd : f.data with
  | nil => exact absurd hfd hne
  | cons c cf =>
    have hc : isPySpace c = false := by
      rw [hfd] at hhead
      simpa using hhead
    have hstrip : pyStripL (f ++ "|" ++ tsst).data =
        c :: (cf ++ '|' :: rstripL tsst.data) := by
      rw [hdata, hfd, List.cons_append, pyStripL_cons c _ hc,
        rstripL_append_cons '|' cf tsst.data (by decide)]
    constructor
    · intro hcontra
      have : (pyStrip (f ++ "|" ++ tsst)).data = [] := by
        rw [hcontra]
      rw [show (pyStrip (f ++ "|" ++ tsst)).data =
        pyStripL (f ++ "|" ++ tsst).data from rfl, hstrip] at this
      exact List.cons_ne_nil _ _ this
    · have hnp : '|' ∉ c :: cf := by rw [← hfd]; exact hpipe
      rw [firstField_eq_takeWhile]
      apply String.ext
      show ((pyStrip (f ++ "|" ++ tsst)).data.takeWhile fun c => c != '|') = f.data
      rw [show (pyStrip (f ++ "|" ++ tsst)).data =
        pyStripL (f ++ "|" ++ tsst).data from rfl, hstrip, hfd]
      rw [show c :: (cf ++ '|' :: rstripL tsst.data) =
        (c :: cf) ++ '|' :: rstripL tsst.data from rfl]
      rw [List.takeWhile_append]
      have hall : ∀ a ∈ c :: cf, (a != '|') = true := by
        intro a ha
        simp only [bne_iff_ne, ne_eq]
        exact fun h => hnp (h ▸ ha)
      rw [List.takeWhile_eq_self_iff.mpr hall]
      simp

/-- Membership in the set built by the `_load_processed_files` loop. -/
theorem mem_loadProcessedFilesAux (lines : List String) (acc : List String)
    (x : String) :
    x ∈ loadProcessedFilesAux lines acc ↔
      x ∈ acc ∨ ∃ line ∈ lines, pyStrip line ≠ "" ∧
        firstField (pyStrip line) = x := by
  induction lines generalizing acc with
  | nil => simp [loadProcessedFilesAux]
  | cons line rest ih =>
    simp only [loadProcessedFilesAux]
    by_cases h : pyStrip line ≠ ""
    · rw [if_pos h]
      cases hsp : splitPipe (pyStrip line) with
      | nil =>
        exact absurd (congrArg (List.map String.data) hsp)
          (by simpa [splitPipe] using splitOnCharL_ne_nil '|' (pyStrip line).data)
      | cons fn parts =>
        have hfn : firstField (pyStrip line) = fn := by
          unfold firstField
          rw [hsp, List.headD_cons]
        rw [ih]
        simp only [List.mem_cons, List.mem_cons (a := line)]
        constructor
        · rintro ((rfl | hx) | ⟨l, hl, hs, hff⟩)
          · exact Or.inr ⟨line, Or.inl rfl, h, hfn⟩
          · exact Or.inl hx
          · exact Or.inr ⟨l, Or.inr hl, hs, hff⟩
        · rintro (hx | ⟨l, (rfl | hl), hs, hff⟩)
          · exact Or.inl (Or.inr hx)
          · exact Or.inl (Or.inl (by rw [← hff, hfn]))
          · exact Or.inr ⟨l, hl, hs, hff⟩
    · rw [if_neg h]
      push_neg at h
      rw [ih]
      constructor
      · rintro (hx | ⟨l, hl, hs, hff⟩)
        · exact Or.inl hx
        · exact Or.inr ⟨l, List.mem_cons_of_mem _ hl, hs, hff⟩
      · rintro (hx | ⟨l, hl, hs, hff⟩)
        · exact Or.inl hx
        · rcases List.mem_cons.mp hl with rfl | hl'
          · exact absurd h hs
          · exact Or.inr ⟨l, hl', hs, hff⟩

theorem mem_loadProcessedFiles (lines : List String) (x : String) :
    x ∈ loadProcessedFiles lines ↔
      ∃ line ∈ lines, pyStrip line ≠ "" ∧ firstField (pyStrip line) = x := by
  unfold loadProcessedFiles
  rw [mem_loadProcessedFilesAux]
  simp

/-- A well-formed record line in the store puts its filename into the
Processed-Set. -/
theorem mem_load_of_entry_mem (lines : List String) (f ts st : String)
    (hf : wfFilename f) (hmem : mkEntry f ts st ∈ lines) :
    f ∈ loadProcessedFiles lines := by
  rw [mem_loadProcessedFiles]
  have hkey : f ++ "|" ++ (ts ++ "|" ++ st) = mkEntry f ts st := by
    unfold mkEntry
    simp [String.append_assoc]
  have := firstField_pyStrip_entry f (ts ++ "|" ++ st) hf
  rw [hkey] at this
  exact ⟨mkEntry f ts st, hmem, this.1, this.2⟩

/-! ### Helper lemmas: scanner -/

/-- Every path returned by `get_new_files` has a basename outside the
loaded Processed-Set (it survived the `filename not in processed_files`
filter), and came from a listed regular file. -/
theorem of_mem_get_new_files (entries : List DirEntry) (procPath : String)
    (storeLines : List String) (p : String)
    (hp : p ∈ get_new_files entries procPath storeLines) :
    basenameS p ∉ loadProcessedFiles storeLines := by
  simp only [get_new_files] at hp
  split at hp
  · exact absurd hp (List.not_mem_nil p)
  · rw [List.mem_insertionSort] at hp
    have := List.of_mem_filter hp
    simpa using this

/-! ### Helper lemmas: Python lexicographic order -/

theorem pyStrLtL_iff_lex (a b : List Char) :
    pyStrLtL a b = true ↔ List.Lex (· < ·) a b := by
  induction a generalizing b with
  | nil =>
    cases b with
    | nil => simp [pyStrLtL]
    | cons y ys => simpa [pyStrLtL] using List.Lex.nil
  | cons x xs ih =>
    cases b with
    | nil => simp [pyStrLtL]
    | cons y ys =>
      by_cases hxy : x = y
      · subst hxy
        have hred : pyStrLtL (x :: xs) (x :: ys) = pyStrLtL xs ys := by
          simp [pyStrLtL]
        rw [hred, ih ys, List.Lex.cons_iff]
      · simp only [pyStrLtL, if_neg hxy, decide_eq_true_eq]
        constructor
        · exact fun h => List.Lex.rel h
        · intro h
          cases h with
          | cons h => exact absurd rfl hxy
          | rel h => exact h

theorem pyStrLe_iff_not_lex (a b : String) :
    pyStrLe a b = true ↔ ¬ List.Lex (· < ·) b.data a.data := by
  unfold pyStrLe
  rw [Bool.not_eq_true', ← Bool.not_eq_true (pyStrLtL b.data a.data),
    ← pyStrLtL_iff_lex]

theorem pyStrLe_total (a b : String) :
    pyStrLe a b = true ∨ pyStrLe b a = true := by
  rw [pyStrLe_iff_not_lex, pyStrLe_iff_not_lex]
  by_cases h : List.Lex (· < ·) b.data a.data
  · exact Or.inr fun h' => asymm_of (List.Lex (· < ·)) h h'
  · exact Or.inl h

theorem pyStrLe_trans (a b c : String) (hab : pyStrLe a b = true)
    (hbc : pyStrLe b c = true) : pyStrLe a c = true := by
  rw [pyStrLe_iff_not_lex] at hab hbc ⊢
  intro hca
  have htri : List.Lex (· < ·) a.data b.data ∨ a.data = b.data ∨
      List.Lex (· < ·) b.data a.data := trichotomous a.data b.data
  rcases htri with hab' | heq | hba'
  · have hcb : List.Lex (· < ·) c.data b.data := Trans.trans hca hab'
    exact hbc hcb
  · exact hbc (by rw [← heq]; exact hca)
  · exact hab hba'

/-! ### Helper lemmas: retry loops -/

theorem readFileContent_eq_some (attempts : Nat → Option String) :
    ∀ fuel i c, readFileContent attempts i fuel = some c →
      ∃ n, attempts n = some c := by
  intro fuel
  induction fuel with
  | zero => simp [readFileContent]
  | succ fuel ih =>
    intro i c h
    simp only [readFileContent] at h
    cases ha : attempts i with
    | some content =>
      rw [ha] at h
      injection h with h'
      exact ⟨i, by rw [ha, h']⟩
    | none =>
      rw [ha] at h
      exact ih (i + 1) c h

theorem readFileContent_none (attempts : Nat → Option String)
    (h : ∀ n, attempts n = none) :
    ∀ fuel i, readFileContent attempts i fuel = none := by
  intro fuel
  induction fuel with
  | zero => intro i; simp [readFileContent]
  | succ fuel ih =>
    intro i
    simp only [readFileContent, h i]
    exact ih (i + 1)

theorem sendMessageWithRetry_status (rounds : Nat → Bool × Option RespData) :
    ∀ fuel i s rd, sendMessageWithRetry rounds i fuel = some (s, rd) →
      rd.httpStatusCode = some 200 ∨ rd.httpStatusCode = some 201 := by
  intro fuel
  induction fuel with
  | zero => simp [sendMessageWithRetry]
  | succ fuel ih =>
    intro i s rd h
    simp only [sendMessageWithRetry] at h
    cases hr : rounds i with
    | mk success rdo =>
      rw [hr] at h
      cases rdo with
      | some r =>
        by_cases hc : (r.httpStatusCode = some 200 || r.httpStatusCode = some 201) = true
        · simp only [hc, if_true] at h
          injection h with h'
          have h2 := congrArg Prod.snd h'
          simp only at h2
          rw [← h2]
          simpa using hc
        · simp only [hc] at h
          exact ih (i + 1) s rd h
      | none => exact ih (i + 1) s rd h

theorem sendMessageWithRetry_none (rounds : Nat → Bool × Option RespData)
    (h : ∀ j rd, (rounds j).2 = some rd →
      rd.httpStatusCode ≠ some 200 ∧ rd.httpStatusCode ≠ some 201) :
    ∀ fuel i, sendMessageWithRetry rounds i fuel = none := by
  intro fuel
  induction fuel with
  | zero => intro i; simp [sendMessageWithRetry]
  | succ fuel ih =>
    intro i
    simp only [sendMessageWithRetry]
    cases hr : rounds i with
    | mk success rdo =>
      cases rdo with
      | some r =>
        have hbad := h i r (by rw [hr])
        have hc : (r.httpStatusCode = some 200 || r.httpStatusCode = some 201) = false := by
          simp [hbad.1, hbad.2]
        simp only [hc, Bool.false_eq_true, if_false]
        exact ih (i + 1)
      | none => exact ih (i + 1)

theorem sendMessageWithRetry_delivered (rounds : Nat → Bool × Option RespData)
    (i fuel : Nat) (s : Bool) (rd : RespData)
    (hr : rounds i = (s, some rd))
    (hsc : rd.httpStatusCode = some 200 ∨ rd.httpStatusCode = some 201) :
    sendMessageWithRetry rounds i (fuel + 1) = some (s, rd) := by
  simp only [sendMessageWithRetry, hr]
  have hc : (rd.httpStatusCode = some 200 || rd.httpStatusCode = some 201) = true := by
    simpa using hsc
  simp [hc]

/-- A delivered HTTP response on an attempt makes `send_hl7v2_message`'s
loop return at that attempt with the business-status mapping applied:
the success flag is exactly `status == "processed"`. -/
theorem sendAttemptsLoop_delivered (posts : Nat → PostOutcome)
    (attempt remaining sc : Nat) (body : JsonDict)
    (hsc : sc = 200 ∨ sc = 201) (hb : body ≠ [])
    (hp : posts attempt = .resp sc body) :
    sendAttemptsLoop posts attempt remaining =
      (decide (dictGetD body "status" "unknown" = "processed"),
       some (enhancedResponse body (some sc))) := by
  rw [sendAttemptsLoop, hp]
  simp only [clientPost, if_pos hsc]
  have hguard : (true && !body.isEmpty) = true := by
    simp [List.isEmpty_iff, hb]
  simp only [hguard, if_true]
  by_cases h1 : dictGetD body "status" "unknown" = "error"
  · have h2 : ¬ dictGetD body "status" "unknown" = "processed" := by
      rw [h1]; decide
    simp [h1, h2]
  · by_cases h2 : dictGetD body "status" "unknown" = "processed"
    · simp [h1, h2]
    · simp [h1, h2]

/-! ### Helper lemmas: driver -/

theorem markFileAsProcessed_snd (ioOk : Bool) (p ts st : String)
    (store : List String) :
    (markFileAsProcessed ioOk p ts st store).2 = store ∨
    (markFileAsProcessed ioOk p ts st store).2 =
      store ++ [mkEntry (basenameS p) ts st] := by
  cases ioOk with
  | false => exact Or.inl rfl
  | true => exact Or.inr rfl

theorem processSingleFile_store_sub (o : FileOracle) (p : String)
    (store : List String) (fuel : Nat) (store' : List String)
    (h : processSingleFile o p store fuel = some store') :
    ∀ line ∈ store', line ∈ store ∨
      ∃ st, line = mkEntry (basenameS p) o.timestamp st := by
  unfold processSingleFile at h
  cases hr : readFileContent o.readAttempts 0 fuel with
  | none => rw [hr] at h; exact absurd h (by simp)
  | some content =>
    rw [hr] at h
    cases hs : sendMessageWithRetry
        (fun r => send_hl7v2_message (o.posts r) 3) 0 fuel with
    | none => rw [hs] at h; exact absurd h (by simp)
    | some res =>
      rw [hs] at h
      obtain ⟨success, rd⟩ := res
      have hcases : store' = store ∨
          ∃ st, store' = store ++ [mkEntry (basenameS p) o.timestamp st] := by
        cases success with
        | true =>
          simp only [if_true] at h
          injection h with h'
          rcases markFileAsProcessed_snd o.appendOk p o.timestamp "success" store with
            heq | heq
          · exact Or.inl (by rw [← h', heq])
          · exact Or.inr ⟨"success", by rw [← h', heq]⟩
        | false =>
          simp only [Bool.false_eq_true, if_false] at h
          injection h with h'
          rcases markFileAsProcessed_snd o.appendOk p o.timestamp "error" store with
            heq | heq
          · exact Or.inl (by rw [← h', heq])
          · exact Or.inr ⟨"error", by rw [← h', heq]⟩
      intro line hline
      rcases hcases with rfl | ⟨st, rfl⟩
      · exact Or.inl hline
      · rcases List.mem_append.mp hline with hl | hl
        · exact Or.inl hl
        · exact Or.inr ⟨st, by simpa using hl⟩

theorem processFilesLoop_cons_some (oracles : String → FileOracle)
    (p : String) (rest : List String) (store : List String)
    (count fuel : Nat) (store' : List String)
    (h : processSingleFile (oracles p) p store fuel = some store') :
    processFilesLoop oracles (p :: rest) store count fuel =
      processFilesLoop oracles rest store' (count + 1) fuel := by
  simp only [processFilesLoop, h]

theorem processFilesLoop_count (oracles : String → FileOracle) :
    ∀ files store count fuel st c,
      processFilesLoop oracles files store count fuel = (st, some c) →
      c = count + files.length := by
  intro files
  induction files with
  | nil =>
    intro store count fuel st c h
    simp only [processFilesLoop] at h
    injection h with h1 h2
    injection h2 with h2
    simp only [List.length_nil]
    omega
  | cons p rest ih =>
    intro store count fuel st c h
    simp only [processFilesLoop] at h
    cases hp : processSingleFile (oracles p) p store fuel with
    | none =>
      rw [hp] at h
      injection h with h1 h2
      exact absurd h2 (by simp)
    | some store' =>
      rw [hp] at h
      have := ih store' (count + 1) fuel st c h
      simp only [List.length_cons]
      omega

theorem processFilesLoop_blocked (oracles : String → FileOracle)
    (pk : String) (hfail : ∀ n, (oracles pk).readAttempts n = none) :
    ∀ pre post store count fuel,
      (processFilesLoop oracles (pre ++ pk :: post) store count fuel).2 = none ∧
      ∀ line ∈ (processFilesLoop oracles (pre ++ pk :: post) store count fuel).1,
        line ∈ store ∨ ∃ p ∈ pre, ∃ st,
          line = mkEntry (basenameS p) (oracles p).timestamp st := by
  have hpk : ∀ store fuel, processSingleFile (oracles pk) pk store fuel = none := by
    intro store fuel
    unfold processSingleFile
    rw [readFileContent_none (oracles pk).readAttempts hfail fuel 0]
  intro pre
  induction pre with
  | nil =>
    intro post store count fuel
    simp only [List.nil_append, processFilesLoop, hpk store fuel]
    exact ⟨trivial, fun line hl => Or.inl hl⟩
  | cons p pre' ih =>
    intro post store count fuel
    simp only [List.cons_append, processFilesLoop]
    cases hp : processSingleFile (oracles p) p store fuel with
    | none =>
      exact ⟨rfl, fun line hl => Or.inl hl⟩
    | some store' =>
      obtain ⟨ih1, ih2⟩ := ih post store' (count + 1) fuel
      refine ⟨ih1, fun line hl => ?_⟩
      rcases ih2 line hl with hl' | ⟨q, hq, st, hline⟩
      · rcases processSingleFile_store_sub (oracles p) p store fuel store' hp line hl' with
          hl'' | ⟨st, hline⟩
        · exact Or.inl hl''
        · exact Or.inr ⟨p, List.mem_cons_self p pre', st, hline⟩
      · exact Or.inr ⟨q, List.mem_cons_of_mem p hq, st, hline⟩

/-! ### Claim theorems -/

/-- C2: Idempotency invariant — for every store state and every filename
that appears in at least one (well-formed) record of the Processed-Set
Store, whatever its status, a scan of the watched directory never returns
a path with that filename as a candidate. -/
theorem c2_scan_never_returns_recorded (entries : List DirEntry)
    (procPath : String) (storeLines : List String) (f ts st : String)
    (hf : wfFilename f) (hmem : mkEntry f ts st ∈ storeLines) :
    f ∉ (get_new_files entries procPath storeLines).map basenameS := by
  intro hcontra
  rcases List.mem_map.mp hcontra with ⟨p, hp, hbp⟩
  apply of_mem_get_new_files entries procPath storeLines p hp
  rw [hbp]
  exact mem_load_of_entry_mem storeLines f ts st hf hmem

/-- Witness for C2: with an `error` record for `a.txt` in the store, a
scan of a directory containing `a.txt` and `b.txt` does not return
`a.txt`. -/
theorem c2_scan_never_returns_recorded_witness :
    "a.txt" ∉ (get_new_files
      [⟨"watch/a.txt", true⟩, ⟨"watch/b.txt", true⟩]
      "watch/processed_files.txt"
      [mkEntry "a.txt" "2024-01-02 03:04:05" "error"]).map basenameS :=
  c2_scan_never_returns_recorded
    [⟨"watch/a.txt", true⟩, ⟨"watch/b.txt", true⟩]
    "watch/processed_files.txt"
    [mkEntry "a.txt" "2024-01-02 03:04:05" "error"]
    "a.txt" "2024-01-02 03:04:05" "error" (by decide) (by decide)

/-- C7: Store round-trip — for every prior store content, appending the
record `("f.txt", "success", t)` and reloading yields a Processed-Set
containing `"f.txt"`, however many unrelated records exist before
(`store`) or after (`post`) it. -/
theorem c7_store_roundtrip (store post : List String) (ts : String) :
    "f.txt" ∈ loadProcessedFiles
      ((markFileAsProcessed true "f.txt" ts "success" store).2 ++ post) := by
  show "f.txt" ∈ loadProcessedFiles
    ((store ++ [mkEntry (basenameS "f.txt") ts "success"]) ++ post)
  have hb : basenameS "f.txt" = "f.txt" := by decide
  rw [hb]
  apply mem_load_of_entry_mem _ "f.txt" ts "success" (by decide)
  simp

/-- C9: loading the store takes only the first field before the first
`'|'` of each (stripped, non-blank) line as a filename, ignoring rather
than rejecting malformed lines: membership in the loaded set is exactly
"some line's first field equals the filename". -/
theorem c9_load_takes_first_field (lines : List String) (f : String) :
    f ∈ loadProcessedFiles lines ↔
      ∃ line ∈ lines, pyStrip line ≠ "" ∧
        (⟨(pyStrip line).data.takeWhile (fun c => c != '|')⟩ : String) = f := by
  rw [mem_loadProcessedFiles]
  constructor
  · rintro ⟨line, hl, hs, hf⟩
    exact ⟨line, hl, hs, by rw [← firstField_eq_takeWhile, hf]⟩
  · rintro ⟨line, hl, hs, hf⟩
    exact ⟨line, hl, hs, by rw [firstField_eq_takeWhile, hf]⟩

/-- C10: the store append does not validate its status argument — any
status string `s` is written verbatim as `filename|timestamp|s` with a
`True` result, and the filename is still excluded from later scans. -/
theorem c10_append_no_validation (s path ts : String) (store : List String) :
    markFileAsProcessed true path ts s store =
      (true, store ++ [basenameS path ++ "|" ++ ts ++ "|" ++ s]) ∧
    (wfFilename (basenameS path) →
      ∀ entries procPath,
        basenameS path ∉ (get_new_files entries procPath
          (store ++ [mkEntry (basenameS path) ts s])).map basenameS) := by
  constructor
  · rfl
  · intro hwf entries procPath hcontra
    rcases List.mem_map.mp hcontra with ⟨p, hp, hbp⟩
    apply of_mem_get_new_files entries procPath _ p hp
    rw [hbp]
    exact mem_load_of_entry_mem _ _ ts s hwf (by simp)

/-- Witness for C10 at the undocumented status string "weird". -/
theorem c10_append_no_validation_witness :
    markFileAsProcessed true "watch/a.txt" "2024-01-01 00:00:00" "weird" [] =
      (true, ["a.txt|2024-01-01 00:00:00|weird"]) ∧
    "a.txt" ∉ (get_new_files [⟨"watch/a.txt", true⟩]
      "watch/processed_files.txt"
      [mkEntry "a.txt" "2024-01-01 00:00:00" "weird"]).map basenameS := by
  constructor
  · exact (c10_append_no_validation "weird" "watch/a.txt"
      "2024-01-01 00:00:00" []).1
  · exact (c10_append_no_validation "weird" "watch/a.txt"
      "2024-01-01 00:00:00" []).2 (by decide)
      [⟨"watch/a.txt", true⟩] "watch/processed_files.txt"

/-- C1 counterexample: against an endpoint whose every post obtains an
HTTP 400 response, the one `send_hl7v2_message` round yields a response
dict carrying `http_status_code = 400` — an HTTP-level response was
obtained — yet `_send_message_with_retry` does not return: with fuel for
50 rounds it is still retrying, contradicting "for every response
carrying an HTTP status code, send returns without further retries". -/
theorem c1_counterexample_http400_still_retries :
    (send_hl7v2_message posts400 3).2.map RespData.httpStatusCode =
      some (some 400) ∧
    sendMessageWithRetry rounds400 0 50 = none := by
  constructor
  · decide
  · decide

/-- C1 (amended): `_send_message_with_retry` treats an attempt as
delivered only when the obtained HTTP status is 200 or 201: (a) whenever
it returns, the returned response carries status 200 or 201; (b) while
every round's response carries any other status — 4xx and 5xx responses
included — or no response at all, it retries without bound; (c) it
returns as soon as a round's response carries 200 or 201. -/
theorem c1_send_returns_iff_http_200_201 :
    (∀ (rounds : Nat → Bool × Option RespData) fuel i s rd,
      sendMessageWithRetry rounds i fuel = some (s, rd) →
      rd.httpStatusCode = some 200 ∨ rd.httpStatusCode = some 201) ∧
    (∀ rounds : Nat → Bool × Option RespData,
      (∀ j rd, (rounds j).2 = some rd →
        rd.httpStatusCode ≠ some 200 ∧ rd.httpStatusCode ≠ some 201) →
      ∀ fuel i, sendMessageWithRetry rounds i fuel = none) ∧
    (∀ (rounds : Nat → Bool × Option RespData) i fuel s rd,
      rounds i = (s, some rd) →
      (rd.httpStatusCode = some 200 ∨ rd.httpStatusCode = some 201) →
      sendMessageWithRetry rounds i (fuel + 1) = some (s, rd)) := by
  refine ⟨?_, ?_, ?_⟩
  · intro rounds fuel i s rd h
    exact sendMessageWithRetry_status rounds fuel i s rd h
  · intro rounds h fuel i
    exact sendMessageWithRetry_none rounds h fuel i
  · intro rounds i fuel s rd hr hsc
    exact sendMessageWithRetry_delivered rounds i fuel s rd hr hsc

/-- Witness for C1's amended theorem: the always-400 endpoint satisfies
the "never 200/201" hypothesis, so the loop is still running after 7
rounds. -/
theorem c1_send_returns_iff_http_200_201_witness :
    sendMessageWithRetry rounds400 0 7 = none :=
  c1_send_returns_iff_http_200_201.2.1 rounds400
    (fun j rd h => by
      have hev : (rounds400 j).2 = some (finalErrorResponse (some 400)) := by
        show (send_hl7v2_message posts400 3).2 = _
        decide
      rw [hev] at h
      injection h with h'
      rw [← h']
      exact ⟨by decide, by decide⟩)
    7 0

/-- C3: the Retrying File Reader never returns a failure value — (a) a
returned string is always the content of a successful read attempt; (b) if
every attempt fails the call never returns; (c) consequently, within one
batch, while one file's read permanently fails, the batch call does not
return and no file after the stuck one in scan order reaches a store
record (every line of the observable store belongs to the prior content
or to a file strictly before the stuck one). -/
theorem c3_reader_never_fails_and_blocks :
    (∀ (attempts : Nat → Option String) fuel i c,
      readFileContent attempts i fuel = some c → ∃ n, attempts n = some c) ∧
    (∀ attempts : Nat → Option String, (∀ n, attempts n = none) →
      ∀ fuel i, readFileContent attempts i fuel = none) ∧
    (∀ (oracles : String → FileOracle) (pk : String),
      (∀ n, (oracles pk).readAttempts n = none) →
      ∀ pre post store count fuel,
        (processFilesLoop oracles (pre ++ pk :: post) store count fuel).2 =
          none ∧
        ∀ line ∈ (processFilesLoop oracles (pre ++ pk :: post)
            store count fuel).1,
          line ∈ store ∨ ∃ p ∈ pre, ∃ st,
            line = mkEntry (basenameS p) (oracles p).timestamp st) := by
  refine ⟨?_, ?_, ?_⟩
  · intro attempts fuel i c h
    exact readFileContent_eq_some attempts fuel i c h
  · intro attempts h fuel i
    exact readFileContent_none attempts h fuel i
  · intro oracles pk hfail pre post store count fuel
    exact processFilesLoop_blocked oracles pk hfail pre post store count fuel

/-- Witness for C3: with a first file whose reads all fail, a two-file
batch never completes. -/
theorem c3_reader_never_fails_and_blocks_witness :
    (processFilesLoop (fun _ => oracleStuckRead)
      (["watch/x.txt"] ++ "watch/y.txt" :: []) [] 0 5).2 = none :=
  (c3_reader_never_fails_and_blocks.2.2 (fun _ => oracleStuckRead)
    "watch/x.txt" (fun _ => rfl) ["watch/x.txt"] [] [] 0 5).1

/-- C4: the Outcome Resolver maps the delivered response's business
status string to the local terminal status — (a) at a delivered (HTTP
200/201, non-empty body) response, `send_hl7v2_message` returns success
exactly for business status "processed" ("error" and anything else,
including a missing status read as "unknown", yield failure); (b) the
driver then records "success" for "processed" and "error" otherwise
after that single delivery sequence (the first round decides; no retry of
a business failure). -/
theorem c4_outcome_mapping :
    (∀ (posts : Nat → PostOutcome) (sc : Nat) (body : JsonDict) (mr : Nat),
      (sc = 200 ∨ sc = 201) → body ≠ [] → posts 0 = .resp sc body →
      send_hl7v2_message posts mr =
        (decide (dictGetD body "status" "unknown" = "processed"),
         some (enhancedResponse body (some sc)))) ∧
    (∀ (o : FileOracle) (path : String) (store : List String)
      (fuel : Nat) (content : String) (sc : Nat) (body : JsonDict),
      o.readAttempts 0 = some content →
      (sc = 200 ∨ sc = 201) → body ≠ [] → o.posts 0 0 = .resp sc body →
      processSingleFile o path store (fuel + 1) =
        some (markFileAsProcessed o.appendOk path o.timestamp
          (if dictGetD body "status" "unknown" = "processed"
           then "success" else "error") store).2) := by
  constructor
  · intro posts sc body mr hsc hb hp
    exact sendAttemptsLoop_delivered posts 0 mr sc body hsc hb hp
  · intro o path store fuel content sc body hread hsc hb hpost
    unfold processSingleFile
    have h1 : readFileContent o.readAttempts 0 (fuel + 1) = some content := by
      simp only [readFileContent, hread]
    rw [h1]
    have hround : send_hl7v2_message (o.posts 0) 3 =
        (decide (dictGetD body "status" "unknown" = "processed"),
         some (enhancedResponse body (some sc))) :=
      sendAttemptsLoop_delivered (o.posts 0) 0 3 sc body hsc hb hpost
    have h2 : sendMessageWithRetry
        (fun r => send_hl7v2_message (o.posts r) 3) 0 (fuel + 1) =
        some (decide (dictGetD body "status" "unknown" = "processed"),
              enhancedResponse body (some sc)) := by
      apply sendMessageWithRetry_delivered
      · exact hround
      · show (enhancedResponse body (some sc)).httpStatusCode = some 200 ∨
          (enhancedResponse body (some sc)).httpStatusCode = some 201
        rcases hsc with rfl | rfl
        · exact Or.inl rfl
        · exact Or.inr rfl
    rw [h2]
    by_cases hp : dictGetD body "status" "unknown" = "processed"
    · simp [hp]
    · simp [hp]

/-- Witness for C4: a delivered-but-business-failed file (HTTP 200,
status "error") is recorded once, as an `error` record. -/
theorem c4_outcome_mapping_witness :
    processSingleFile oracleBizErr "watch/f.txt" [] 1 =
      some ["f.txt|2024-01-01 00:00:00|error"] := by
  have h := c4_outcome_mapping.2 oracleBizErr "watch/f.txt" [] 0 "MSH|1" 200
    [("status", "error"), ("id", "m7")] rfl (Or.inl rfl) (by decide) rfl
  rw [h]
  decide

/-- C5: the scan result is sorted by filename in plain lexicographic
(code-point, hence byte-wise on UTF-8) ascending order, and for the files
zebra/apple/banana listed in any of the six possible orders the scan
returns them as apple, banana, zebra. -/
theorem c5_scan_sorted_by_basename :
    (∀ entries procPath storeLines,
      List.Sorted
        (fun a b => ¬ List.Lex (· < ·) (basenameS b).data (basenameS a).data)
        (get_new_files entries procPath storeLines)) ∧
    (∀ e₁ e₂ e₃ : DirEntry,
      [e₁, e₂, e₃] = [⟨"watch/zebra.txt", true⟩, ⟨"watch/apple.txt", true⟩,
        ⟨"watch/banana.txt", true⟩] ∨
      [e₁, e₂, e₃] = [⟨"watch/zebra.txt", true⟩, ⟨"watch/banana.txt", true⟩,
        ⟨"watch/apple.txt", true⟩] ∨
      [e₁, e₂, e₃] = [⟨"watch/apple.txt", true⟩, ⟨"watch/zebra.txt", true⟩,
        ⟨"watch/banana.txt", true⟩] ∨
      [e₁, e₂, e₃] = [⟨"watch/apple.txt", true⟩, ⟨"watch/banana.txt", true⟩,
        ⟨"watch/zebra.txt", true⟩] ∨
      [e₁, e₂, e₃] = [⟨"watch/banana.txt", true⟩, ⟨"watch/zebra.txt", true⟩,
        ⟨"watch/apple.txt", true⟩] ∨
      [e₁, e₂, e₃] = [⟨"watch/banana.txt", true⟩, ⟨"watch/apple.txt", true⟩,
        ⟨"watch/zebra.txt", true⟩] →
      get_new_files [e₁, e₂, e₃] "watch/processed_files.txt" [] =
        ["watch/apple.txt", "watch/banana.txt", "watch/zebra.txt"]) := by
  constructor
  · intro entries procPath storeLines
    simp only [get_new_files]
    split
    · exact List.sorted_nil
    · have hs : List.Sorted
          (fun a b => pyStrLe (basenameS a) (basenameS b) = true)
          (List.insertionSort
            (fun a b => pyStrLe (basenameS a) (basenameS b) = true)
            (List.filter
              (fun p => decide (basenameS p ∉ loadProcessedFiles storeLines))
              (List.map DirEntry.path
                (List.filter
                  (fun e => e.isFile &&
                    decide (basenameS e.path ≠ basenameS procPath))
                  entries)))) := by
        haveI : IsTotal String
            (fun a b => pyStrLe (basenameS a) (basenameS b) = true) :=
          ⟨fun a b => pyStrLe_total (basenameS a) (basenameS b)⟩
        haveI : IsTrans String
            (fun a b => pyStrLe (basenameS a) (basenameS b) = true) :=
          ⟨fun a b c => pyStrLe_trans (basenameS a) (basenameS b) (basenameS c)⟩
        exact List.sorted_insertionSort _ _
      exact List.Pairwise.imp
        (fun hab => (pyStrLe_iff_not_lex _ _).mp hab) hs
  · intro e₁ e₂ e₃ h
    rcases h with h | h | h | h | h | h <;>
      (injection h with h₁ h; injection h with h₂ h; injection h with h₃ h;
       subst h₁; subst h₂; subst h₃; decide)

/-- Witness for C5 at the creation order zebra, banana, apple. -/
theorem c5_scan_sorted_by_basename_witness :
    get_new_files [⟨"watch/zebra.txt", true⟩, ⟨"watch/banana.txt", true⟩,
      ⟨"watch/apple.txt", true⟩] "watch/processed_files.txt" [] =
      ["watch/apple.txt", "watch/banana.txt", "watch/zebra.txt"] :=
  c5_scan_sorted_by_basename.2 ⟨"watch/zebra.txt", true⟩
    ⟨"watch/banana.txt", true⟩ ⟨"watch/apple.txt", true⟩
    (Or.inr (Or.inl rfl))

/-- C6: the batch call counts files that reached a terminal record,
success and error alike — (a) whenever the batch completes, the returned
count equals the number of scanned candidates (each of which ended in a
single best-effort record attempt); (b) the concrete two-file scenario
with both deliveries business-successful returns 2 with two `|success`
lines; (c) the same scenario with one business failure still returns 2,
with one `|success` and one `|error` line. -/
theorem c6_batch_counts_resolved :
    (∀ (entries : List DirEntry) (procPath : String)
       (storeLines : List String) (oracles : String → FileOracle)
       (fuel : Nat) (st : List String) (c : Nat),
      process_new_files entries procPath storeLines oracles fuel =
        (st, some c) →
      c = (get_new_files entries procPath storeLines).length) ∧
    (process_new_files [⟨"watch/a.txt", true⟩, ⟨"watch/b.txt", true⟩]
       "store/processed_files.txt" []
       (fun p =>
         { readAttempts := fun _ =>
             some (if p = "watch/a.txt" then "hello" else "world")
           posts := fun _ _ => .resp 200 [("status", "processed"), ("id", "m1")]
           appendOk := true
           timestamp := "2024-01-01 00:00:00" })
       3 =
      (["a.txt|2024-01-01 00:00:00|success",
        "b.txt|2024-01-01 00:00:00|success"], some 2)) ∧
    (process_new_files [⟨"watch/a.txt", true⟩, ⟨"watch/b.txt", true⟩]
       "store/processed_files.txt" []
       (fun p =>
         { readAttempts := fun _ => some "x"
           posts := fun _ _ =>
             if p = "watch/b.txt" then .resp 200 [("status", "error"), ("id", "m2")]
             else .resp 200 [("status", "processed"), ("id", "m1")]
           appendOk := true
           timestamp := "2024-01-01 00:00:00" })
       3 =
      (["a.txt|2024-01-01 00:00:00|success",
        "b.txt|2024-01-01 00:00:00|error"], some 2)) := by
  refine ⟨?_, by decide, by decide⟩
  intro entries procPath storeLines oracles fuel st c h
  simp only [process_new_files] at h
  have := processFilesLoop_count oracles
    (get_new_files entries procPath storeLines) storeLines 0 fuel st c h
  omega

/-- Witness for C6's counting law at the concrete two-file scenario. -/
theorem c6_batch_counts_resolved_witness :
    (2 : Nat) = (get_new_files
      [⟨"watch/a.txt", true⟩, ⟨"watch/b.txt", true⟩]
      "store/processed_files.txt" []).length :=
  c6_batch_counts_resolved.1
    [⟨"watch/a.txt", true⟩, ⟨"watch/b.txt", true⟩]
    "store/processed_files.txt" []
    (fun p =>
      { readAttempts := fun _ =>
          some (if p = "watch/a.txt" then "hello" else "world")
        posts := fun _ _ => .resp 200 [("status", "processed"), ("id", "m1")]
        appendOk := true
        timestamp := "2024-01-01 00:00:00" })
    3
    ["a.txt|2024-01-01 00:00:00|success", "b.txt|2024-01-01 00:00:00|success"]
    2 (by decide)

/-- C8: the store append never raises — on failure it returns `False`
with the store untouched (a); a failed append neither blocks nor retries
the file's workflow, which still completes (b); and the driver then moves
on to the next file, counting the file regardless of the append outcome
(c). -/
theorem c8_append_never_raises_driver_continues :
    (∀ (path ts st : String) (store : List String),
      markFileAsProcessed false path ts st store = (false, store)) ∧
    (∀ (o : FileOracle) (path : String) (store : List String) (fuel : Nat)
       (s : Bool) (rd : RespData) (content : String),
      o.appendOk = false →
      readFileContent o.readAttempts 0 fuel = some content →
      sendMessageWithRetry (fun r => send_hl7v2_message (o.posts r) 3) 0 fuel =
        some (s, rd) →
      processSingleFile o path store fuel = some store) ∧
    (∀ (oracles : String → FileOracle) (p : String) (rest : List String)
       (store : List String) (count fuel : Nat) (store' : List String),
      processSingleFile (oracles p) p store fuel = some store' →
      processFilesLoop oracles (p :: rest) store count fuel =
        processFilesLoop oracles rest store' (count + 1) fuel) := by
  refine ⟨?_, ?_, ?_⟩
  · intro path ts st store
    simp [markFileAsProcessed]
  · intro o path store fuel s rd content hok hread hsend
    unfold processSingleFile
    rw [hread, hsend]
    cases s
    · simp [markFileAsProcessed, hok]
    · simp [markFileAsProcessed, hok]
  · intro oracles p rest store count fuel store' h
    exact processFilesLoop_cons_some oracles p rest store count fuel store' h

/-- Witness for C8: a file whose append fails still completes with the
store unchanged. -/
theorem c8_append_never_raises_driver_continues_witness :
    processSingleFile oracleAppendFail "watch/a.txt" ["keep|x|success"] 1 =
      some ["keep|x|success"] :=
  c8_append_never_raises_driver_continues.2.1 oracleAppendFail "watch/a.txt"
    ["keep|x|success"] 1 true
    (enhancedResponse [("status", "processed"), ("id", "m8")] (some 200))
    "MSH|2" rfl (by decide) (by decide)

end HS
